import Mathlib

/-!
Shallow embedding of the code-sync repository's persistence layer
(`src/server/storage.ts`), HTTP route handlers (`src/server/routes.ts`)
and the client-side pull handler of the Home component.

Timestamps are modelled as natural numbers (milliseconds); the wall
clock (`new Date()` / `Date.now()`) and `randomUUID()` are passed in as
explicit parameters.  JavaScript `Map` objects and plain-object records
keyed by strings are modelled as association lists in insertion order,
which matches the iteration order of both.
-/

/-- A row of the `users` table (shared/schema.ts). -/
structure User where
  id : String
  username : String
  password : String
deriving DecidableEq, Repr

/-- The singleton shared document (`shared_code` row, shared/schema.ts). -/
structure SharedCode where
  id : String
  content : String
  language : String
  updatedAt : Nat
deriving DecidableEq, Repr

/-- A file-catalog record (`shared_files` row, shared/schema.ts). -/
structure SharedFile where
  id : String
  filename : String
  objectPath : String
  fileSize : String
  uploadedAt : Nat
deriving DecidableEq, Repr

/-- Fields accepted by `insertUserSchema`. -/
structure InsertUser where
  username : String
  password : String
deriving DecidableEq, Repr

/-- Fields accepted by `updateSharedCodeSchema` (both optional, since the
drizzle columns carry defaults). -/
structure UpdateSharedCode where
  content : Option String
  language : Option String
deriving DecidableEq, Repr

/-- Fields accepted by `insertSharedCodeSchema` (both optional). -/
structure InsertSharedCode where
  content : Option String
  language : Option String
deriving DecidableEq, Repr

/-- Fields accepted by `insertSharedFileSchema` (all required). -/
structure InsertSharedFile where
  filename : String
  objectPath : String
  fileSize : String
deriving DecidableEq, Repr

/-- JavaScript `x || d` on a possibly-undefined string: both `undefined`
and the empty string are falsy, so either yields the default. -/
def jsOrString (x : Option String) (d : String) : String :=
  match x with
  | none => d
  | some s => if s = "" then d else s

/-- JavaScript `x ?? d` on a possibly-undefined value: only `undefined`
yields the default. -/
def jsCoalesce (x : Option α) (d : α) : α :=
  x.getD d

/-- `map.get(k)` / `record[k]`. -/
def mapGet (m : List (String × α)) (k : String) : Option α :=
  (m.find? (fun p => p.1 = k)).map (·.2)

/-- `map.has(k)` / `k in record`. -/
def mapHasKey (m : List (String × α)) (k : String) : Bool :=
  m.any (fun p => p.1 = k)

/-- `map.set(k, v)` / `record[k] = v`: overwrite in place if the key is
present, otherwise append (insertion order is preserved). -/
def mapSet (m : List (String × α)) (k : String) (v : α) : List (String × α) :=
  if mapHasKey m k then
    m.map (fun p => if p.1 = k then (k, v) else p)
  else
    m ++ [(k, v)]

/-- `delete record[k]`: remove the entry with the key (if any). -/
def mapRemove (m : List (String × α)) (k : String) : List (String × α) :=
  m.filter (fun p => ¬ p.1 = k)

/-- `map.delete(k)`: returns whether the key was present, and the map
with the entry removed. -/
def mapDelete (m : List (String × α)) (k : String) : Bool × List (String × α) :=
  (mapHasKey m k, mapRemove m k)

/-- `Array.from(map.values())` / `Object.values(record)`. -/
def mapValues (m : List (String × α)) : List α :=
  m.map (·.2)

/-- The in-memory state of `MemStorage` (storage.ts lines 18-27). -/
structure MemState where
  users : List (String × User)
  sharedCodeData : Option SharedCode
  sharedFiles : List (String × SharedFile)
deriving DecidableEq, Repr

/-- The `MemStorage` constructor: empty maps, null document. -/
def MemState.empty : MemState :=
  { users := [], sharedCodeData := none, sharedFiles := [] }

/-- `MemStorage.getUser`. -/
def MemStorage.getUser (id : String) (st : MemState) : Option User :=
  mapGet st.users id

/-- `MemStorage.getUserByUsername`. -/
def MemStorage.getUserByUsername (username : String) (st : MemState) : Option User :=
  (mapValues st.users).find? (fun u => u.username = username)

/-- `MemStorage.createUser`: `freshId` stands for `randomUUID()`.  The
user is stored unconditionally; no username check is performed. -/
def MemStorage.createUser (insertUser : InsertUser) (freshId : String)
    (st : MemState) : User × MemState :=
  let user : User :=
    { id := freshId, username := insertUser.username, password := insertUser.password }
  (user, { st with users := mapSet st.users freshId user })

/-- `MemStorage.getSharedCode`. -/
def MemStorage.getSharedCode (st : MemState) : Option SharedCode :=
  st.sharedCodeData

/-- `MemStorage.updateSharedCode` (storage.ts lines 51-68): `now` stands
for `new Date()`.  The existing-document branch merges with `??`; the
creation branch defaults with `||` and the fixed id `"default"`. -/
def MemStorage.updateSharedCode (data : UpdateSharedCode) (now : Nat)
    (st : MemState) : SharedCode × MemState :=
  match st.sharedCodeData with
  | some existing =>
    let updated : SharedCode :=
      { existing with
        content := jsCoalesce data.content existing.content
        language := jsCoalesce data.language existing.language
        updatedAt := now }
    (updated, { st with sharedCodeData := some updated })
  | none =>
    let created : SharedCode :=
      { id := "default"
        content := jsOrString data.content ""
        language := jsOrString data.language "text"
        updatedAt := now }
    (created, { st with sharedCodeData := some created })

/-- `MemStorage.createSharedCode` (storage.ts lines 70-83). -/
def MemStorage.createSharedCode (data : InsertSharedCode) (freshId : String)
    (now : Nat) (st : MemState) : SharedCode × MemState :=
  let sharedCode : SharedCode :=
    { id := freshId
      content := jsCoalesce data.content ""
      language := jsCoalesce data.language "text"
      updatedAt := now }
  (sharedCode, { st with sharedCodeData := some sharedCode })

/-- `MemStorage.getSharedFiles`. -/
def MemStorage.getSharedFiles (st : MemState) : List SharedFile :=
  mapValues st.sharedFiles

/-- `MemStorage.createSharedFile` (storage.ts lines 89-102). -/
def MemStorage.createSharedFile (data : InsertSharedFile) (freshId : String)
    (now : Nat) (st : MemState) : SharedFile × MemState :=
  let sharedFile : SharedFile :=
    { id := freshId
      filename := data.filename
      objectPath := data.objectPath
      fileSize := data.fileSize
      uploadedAt := now }
  (sharedFile, { st with sharedFiles := mapSet st.sharedFiles freshId sharedFile })

/-- `MemStorage.deleteSharedFile` (storage.ts lines 104-106):
`Map.delete` returns whether the key existed. -/
def MemStorage.deleteSharedFile (id : String) (st : MemState) : Bool × MemState :=
  let r := mapDelete st.sharedFiles id
  (r.1, { st with sharedFiles := r.2 })

/-- The remote blob store as seen by `BlobStorage`: the presence of the
access credential `BLOB_READ_WRITE_TOKEN`, and the JSON object stored
under each of the three well-known keys (`none` = no object at the key). -/
structure BlobStore where
  token : Bool
  sharedCodeBlob : Option SharedCode
  sharedFilesBlob : Option (List (String × SharedFile))
  usersBlob : Option (List (String × User))
deriving DecidableEq, Repr

/-- `BlobStorage.readBlobJSON` (storage.ts lines 116-144): without the
credential the caller-supplied default is returned; with it, the default
is returned when no object exists at the key, and the parsed object
otherwise (fetch and parse failures are likewise swallowed into the
default and are not modelled separately). -/
def readBlobJSON (token : Bool) (slot : Option α) (defaultValue : α) : α :=
  if token then
    match slot with
    | some v => v
    | none => defaultValue
  else
    defaultValue

/-- `BlobStorage.writeBlobJSON` (storage.ts lines 146-182): without the
credential the write is skipped and the store is unchanged; with it, the
existing object at the key is deleted and the new content written, so
the slot afterwards holds exactly the new data. -/
def writeBlobJSON (token : Bool) (slot : Option α) (data : α) : Option α :=
  if token then some data else slot

/-- `BlobStorage.getUser`. -/
def BlobStorage.getUser (id : String) (st : BlobStore) : Option User :=
  let users := readBlobJSON st.token st.usersBlob []
  mapGet users id

/-- `BlobStorage.getUserByUsername`. -/
def BlobStorage.getUserByUsername (username : String) (st : BlobStore) : Option User :=
  let users := readBlobJSON st.token st.usersBlob []
  (mapValues users).find? (fun u => u.username = username)

/-- `BlobStorage.createUser` (storage.ts lines 194-201): reads the user
record, inserts under the fresh id, writes back.  No username check. -/
def BlobStorage.createUser (insertUser : InsertUser) (freshId : String)
    (st : BlobStore) : User × BlobStore :=
  let users := readBlobJSON st.token st.usersBlob []
  let user : User :=
    { id := freshId, username := insertUser.username, password := insertUser.password }
  let users2 := mapSet users freshId user
  (user, { st with usersBlob := writeBlobJSON st.token st.usersBlob users2 })

/-- `BlobStorage.getSharedCode`: a read whose caller-supplied default is
`undefined`, i.e. `none`. -/
def BlobStorage.getSharedCode (st : BlobStore) : Option SharedCode :=
  readBlobJSON st.token (st.sharedCodeBlob.map some) none

/-- `BlobStorage.updateSharedCode` (storage.ts lines 207-226): reads the
current document; merges with `??` when one exists, otherwise creates
with `||` defaults and a fresh random id; writes back; returns the
updated document. -/
def BlobStorage.updateSharedCode (data : UpdateSharedCode) (freshId : String)
    (now : Nat) (st : BlobStore) : SharedCode × BlobStore :=
  let existing := BlobStorage.getSharedCode st
  let updated : SharedCode :=
    match existing with
    | some e =>
      { e with
        content := jsCoalesce data.content e.content
        language := jsCoalesce data.language e.language
        updatedAt := now }
    | none =>
      { id := freshId
        content := jsOrString data.content ""
        language := jsOrString data.language "text"
        updatedAt := now }
  (updated, { st with sharedCodeBlob := writeBlobJSON st.token st.sharedCodeBlob updated })

/-- `BlobStorage.createSharedCode` (storage.ts lines 228-237). -/
def BlobStorage.createSharedCode (data : InsertSharedCode) (freshId : String)
    (now : Nat) (st : BlobStore) : SharedCode × BlobStore :=
  let sharedCode : SharedCode :=
    { id := freshId
      content := jsCoalesce data.content ""
      language := jsCoalesce data.language "text"
      updatedAt := now }
  (sharedCode, { st with sharedCodeBlob := writeBlobJSON st.token st.sharedCodeBlob sharedCode })

/-- `BlobStorage.getSharedFiles` (storage.ts lines 239-242). -/
def BlobStorage.getSharedFiles (st : BlobStore) : List SharedFile :=
  mapValues (readBlobJSON st.token st.sharedFilesBlob [])

/-- `BlobStorage.createSharedFile` (storage.ts lines 244-257). -/
def BlobStorage.createSharedFile (data : InsertSharedFile) (freshId : String)
    (now : Nat) (st : BlobStore) : SharedFile × BlobStore :=
  let files := readBlobJSON st.token st.sharedFilesBlob []
  let file : SharedFile :=
    { id := freshId
      filename := data.filename
      objectPath := data.objectPath
      fileSize := data.fileSize
      uploadedAt := now }
  let files2 := mapSet files freshId file
  (file, { st with sharedFilesBlob := writeBlobJSON st.token st.sharedFilesBlob files2 })

/-- `BlobStorage.deleteSharedFile` (storage.ts lines 259-264): reads the
catalog, removes the key (`delete files[id]`, a no-op when absent),
writes back, and returns `true` unconditionally. -/
def BlobStorage.deleteSharedFile (id : String) (st : BlobStore) : Bool × BlobStore :=
  let files := readBlobJSON st.token st.sharedFilesBlob []
  let files2 := mapRemove files id
  (true, { st with sharedFilesBlob := writeBlobJSON st.token st.sharedFilesBlob files2 })

/-- JavaScript `s.endsWith(pat)`: the string's character sequence ends
with the pattern's character sequence. -/
def strEndsWith (s pat : String) : Bool :=
  List.isSuffixOf pat.data s.data

/-- The three-way tolerant match of the download route
(routes.ts lines 177-181). -/
def objectPathMatches (f : SharedFile) (requestedPath : String) : Bool :=
  f.objectPath = requestedPath
    || strEndsWith f.objectPath requestedPath
    || f.objectPath = "/objects/" ++ requestedPath

/-- The catalog lookup of `GET /objects/:objectPath(*)`
(routes.ts lines 168-196): the first record matching the requested path
fragment, `none` meaning the route answers 404. -/
def downloadLookup (files : List SharedFile) (requestedPath : String) : Option SharedFile :=
  files.find? (fun f => objectPathMatches f requestedPath)

/-- Outcome of `DELETE /api/files/:id`. -/
inductive DeleteResponse where
  | success
  | notFound
deriving DecidableEq, Repr

/-- `DELETE /api/files/:id` (routes.ts lines 200-227) over the volatile
backend.  `bytes` is the set of object references held by the byte
store; the byte deletion is attempted only when the record exists and
the credential is set, and a byte-deletion failure
(`byteDeleteFails = true`) is caught and ignored, so it never affects
the catalog deletion or the response. -/
def deleteFileHandlerMem (fileId : String) (token byteDeleteFails : Bool)
    (st : MemState) (bytes : List String) :
    DeleteResponse × MemState × List String :=
  let fileOpt := (MemStorage.getSharedFiles st).find? (fun f => f.id = fileId)
  let bytes2 :=
    match fileOpt with
    | some f =>
      if token && !byteDeleteFails then bytes.filter (fun p => ¬ p = f.objectPath)
      else bytes
    | none => bytes
  let r := MemStorage.deleteSharedFile fileId st
  ((if r.1 then DeleteResponse.success else DeleteResponse.notFound), r.2, bytes2)

/-- `DELETE /api/files/:id` over the remote-object backend (the
credential check uses the same token the backend holds). -/
def deleteFileHandlerBlob (fileId : String) (byteDeleteFails : Bool)
    (st : BlobStore) (bytes : List String) :
    DeleteResponse × BlobStore × List String :=
  let fileOpt := (BlobStorage.getSharedFiles st).find? (fun f => f.id = fileId)
  let bytes2 :=
    match fileOpt with
    | some f =>
      if st.token && !byteDeleteFails then bytes.filter (fun p => ¬ p = f.objectPath)
      else bytes
    | none => bytes
  let r := BlobStorage.deleteSharedFile fileId st
  ((if r.1 then DeleteResponse.success else DeleteResponse.notFound), r.2, bytes2)

/-- Client-side state of the Home component relevant to the pull
handler: the controlled editor state and `lastEditTime.current`
(milliseconds, 0 initially). -/
structure ClientState where
  content : String
  language : String
  lastEditTime : Nat
deriving DecidableEq, Repr

/-- The pull effect of the Home component (the `useEffect` on
`sharedCode`): when a poll result is present, overwrite local content
and language with the server's version only if more than 2000 ms have
passed since the last local edit AND the server timestamp is newer than
the last local edit; otherwise discard the pull.  `nowMs` stands for
`Date.now()`. -/
def pullEffect (sharedCode : Option SharedCode) (nowMs : Nat)
    (st : ClientState) : ClientState :=
  match sharedCode with
  | none => st
  | some sc =>
    let timeSinceLastEdit : Int := (nowMs : Int) - (st.lastEditTime : Int)
    let serverTime : Int := (sc.updatedAt : Int)
    if timeSinceLastEdit > 2000 ∧ serverTime > (st.lastEditTime : Int) then
      let st1 := if sc.content ≠ st.content then { st with content := sc.content } else st
      if sc.language ≠ st1.language then { st1 with language := sc.language } else st1
    else
      st

/-! ## Helper lemmas about the map model -/

theorem mapHasKey_iff (m : List (String × α)) (k : String) :
    mapHasKey m k = true ↔ ∃ p ∈ m, p.1 = k := by
  simp [mapHasKey, List.any_eq_true]

theorem mapValues_mapSet_of_not_hasKey (m : List (String × α)) (k : String) (v : α)
    (h : mapHasKey m k = false) :
    mapValues (mapSet m k v) = mapValues m ++ [v] := by
  simp [mapSet, h, mapValues]

theorem mem_mapRemove (m : List (String × α)) (k : String) (p : String × α)
    (h : p ∈ mapRemove m k) : p ∈ m ∧ ¬ p.1 = k := by
  simpa [mapRemove] using List.mem_filter.1 h

theorem readBlobJSON_of_token (slot : Option α) (d : α) :
    readBlobJSON true slot d = slot.getD d := by
  cases slot <;> rfl

theorem readBlobJSON_of_no_token (slot : Option α) (d : α) :
    readBlobJSON false slot d = d := rfl

theorem count_append_fresh (l : List SharedFile) (v : SharedFile)
    (h : ∀ g ∈ l, ¬ g = v) : (l ++ [v]).count v = 1 := by
  rw [List.count_append]
  have h0 : l.count v = 0 := by
    rw [List.count_eq_zero]
    intro hv
    exact h v hv rfl
  simp [h0]

/-! ## Claim theorems -/

/-- Claim C5: when the access credential (`BLOB_READ_WRITE_TOKEN`) is
absent, every read of the remote-object backend returns the
caller-supplied default value, and every write is a silent no-op that
leaves the remote store unchanged; none of the operations fail. -/
theorem C5_no_token_degrades_silently (st : BlobStore) (h : st.token = false) :
    (∀ (α : Type) (slot : Option α) (d v : α),
       readBlobJSON false slot d = d ∧ writeBlobJSON false slot v = slot) ∧
    (∀ id, BlobStorage.getUser id st = none) ∧
    (∀ name, BlobStorage.getUserByUsername name st = none) ∧
    BlobStorage.getSharedCode st = none ∧
    BlobStorage.getSharedFiles st = [] ∧
    (∀ ins fid, (BlobStorage.createUser ins fid st).2 = st) ∧
    (∀ data fid now, (BlobStorage.updateSharedCode data fid now st).2 = st) ∧
    (∀ data fid now, (BlobStorage.createSharedCode data fid now st).2 = st) ∧
    (∀ data fid now, (BlobStorage.createSharedFile data fid now st).2 = st) ∧
    (∀ id, (BlobStorage.deleteSharedFile id st).2 = st) := by
  cases st with
  | mk tok cb fb ub =>
    have h2 : tok = false := h
    subst h2
    refine ⟨fun α slot d v => ⟨rfl, by simp [writeBlobJSON]⟩, ?_, ?_, ?_, ?_, ?_, ?_, ?_, ?_, ?_⟩ <;>
      simp [BlobStorage.getUser, BlobStorage.getUserByUsername, BlobStorage.getSharedCode,
        BlobStorage.getSharedFiles, BlobStorage.createUser, BlobStorage.updateSharedCode,
        BlobStorage.createSharedCode, BlobStorage.createSharedFile, BlobStorage.deleteSharedFile,
        readBlobJSON, writeBlobJSON, mapGet, mapValues]

/-- Witness for C5 at a concrete credential-less store holding data. -/
theorem C5_witness :
    BlobStorage.getSharedCode
        ⟨false, some ⟨"d", "c", "text", 3⟩, some [("a", ⟨"a", "f", "p", "1", 0⟩)], none⟩ = none ∧
    (BlobStorage.deleteSharedFile "a"
        ⟨false, some ⟨"d", "c", "text", 3⟩, some [("a", ⟨"a", "f", "p", "1", 0⟩)], none⟩).2 =
      ⟨false, some ⟨"d", "c", "text", 3⟩, some [("a", ⟨"a", "f", "p", "1", 0⟩)], none⟩ :=
  ⟨(C5_no_token_degrades_silently _ rfl).2.2.2.1,
   (C5_no_token_degrades_silently _ rfl).2.2.2.2.2.2.2.2.2 "a"⟩

/-- Claim C6: the download route matches a catalog record whose
`objectPath` equals the requested fragment, or ends with it, or equals
`"/objects/" ++ fragment`; it answers 404 exactly when no record
matches under any of the three comparisons.  A record created with
`objectPath = "/objects/f.txt"` is resolved by the fragment `"f.txt"`
via the suffix comparison (plain equality does not hold there). -/
theorem C6_download_matching :
    (∀ (files : List SharedFile) (frag : String),
       downloadLookup files frag = none ↔
         ∀ f ∈ files,
           ¬ (f.objectPath = frag ∨ strEndsWith f.objectPath frag = true ∨
               f.objectPath = "/objects/" ++ frag)) ∧
    ((downloadLookup
        (MemStorage.getSharedFiles
          (MemStorage.createSharedFile ⟨"f.txt", "/objects/f.txt", "10"⟩ "fid" 0 MemState.empty).2)
        "f.txt") =
      some ⟨"fid", "f.txt", "/objects/f.txt", "10", 0⟩ ∧
     ¬ ("/objects/f.txt" : String) = "f.txt" ∧
     strEndsWith "/objects/f.txt" "f.txt" = true) := by
  constructor
  · intro files frag
    rw [downloadLookup, List.find?_eq_none]
    exact forall_congr' fun f => forall_congr' fun _ =>
      not_congr (by simp [objectPathMatches, or_assoc])
  · exact ⟨by decide, by decide, by decide⟩

/-- Witness for C6: a concrete miss (no record matches `"zzz"`). -/
theorem C6_witness :
    downloadLookup [⟨"fid", "f.txt", "/objects/f.txt", "10", 0⟩] "zzz" = none :=
  (C6_download_matching.1 [⟨"fid", "f.txt", "/objects/f.txt", "10", 0⟩] "zzz").2 (by decide)

/-- Counterexample to claim C1 as stated: on the creation path the code
defaults with JavaScript `||`, which treats a provided empty string as
falsy.  Updating with `{language: ""}` when no document exists creates a
document whose language is `"text"`, not the provided `""`, in both
backends. -/
theorem C1_counterexample :
    (MemStorage.updateSharedCode ⟨none, some ""⟩ 0 MemState.empty).1.language = "text" ∧
    ¬ (MemStorage.updateSharedCode ⟨none, some ""⟩ 0 MemState.empty).1.language = "" ∧
    (BlobStorage.updateSharedCode ⟨none, some ""⟩ "uuid0" 0 ⟨true, none, none, none⟩).1.language
      = "text" := by decide

/-- Claim C1 (amended): in both backends, `updateSharedCode` creates a
document when none exists, taking non-empty provided fields from the
partial update and defaulting omitted OR empty-string fields (falsy
coalescing) to `""` for content and `"text"` for language; when a
document exists, fields present in the partial (empty strings included)
overwrite the current values and absent fields are left unchanged; in
either case `updatedAt` is set to the current time and the result is the
stored document. -/
theorem C1_update_semantics (data : UpdateSharedCode) (now : Nat) :
    (∀ st : MemState, st.sharedCodeData = none →
       ((data.content = none ∨ data.content = some "") →
          (MemStorage.updateSharedCode data now st).1.content = "") ∧
       (∀ c, data.content = some c → ¬ c = "" →
          (MemStorage.updateSharedCode data now st).1.content = c) ∧
       ((data.language = none ∨ data.language = some "") →
          (MemStorage.updateSharedCode data now st).1.language = "text") ∧
       (∀ l, data.language = some l → ¬ l = "" →
          (MemStorage.updateSharedCode data now st).1.language = l) ∧
       (MemStorage.updateSharedCode data now st).1.updatedAt = now ∧
       (MemStorage.updateSharedCode data now st).2.sharedCodeData =
         some (MemStorage.updateSharedCode data now st).1) ∧
    (∀ (st : MemState) (e : SharedCode), st.sharedCodeData = some e →
       (data.content = none → (MemStorage.updateSharedCode data now st).1.content = e.content) ∧
       (∀ c, data.content = some c → (MemStorage.updateSharedCode data now st).1.content = c) ∧
       (data.language = none → (MemStorage.updateSharedCode data now st).1.language = e.language) ∧
       (∀ l, data.language = some l → (MemStorage.updateSharedCode data now st).1.language = l) ∧
       (MemStorage.updateSharedCode data now st).1.updatedAt = now ∧
       (MemStorage.updateSharedCode data now st).2.sharedCodeData =
         some (MemStorage.updateSharedCode data now st).1) ∧
    (∀ (fid : String) (st : BlobStore), BlobStorage.getSharedCode st = none →
       ((data.content = none ∨ data.content = some "") →
          (BlobStorage.updateSharedCode data fid now st).1.content = "") ∧
       (∀ c, data.content = some c → ¬ c = "" →
          (BlobStorage.updateSharedCode data fid now st).1.content = c) ∧
       ((data.language = none ∨ data.language = some "") →
          (BlobStorage.updateSharedCode data fid now st).1.language = "text") ∧
       (∀ l, data.language = some l → ¬ l = "" →
          (BlobStorage.updateSharedCode data fid now st).1.language = l) ∧
       (BlobStorage.updateSharedCode data fid now st).1.updatedAt = now ∧
       (st.token = true →
          BlobStorage.getSharedCode (BlobStorage.updateSharedCode data fid now st).2 =
            some (BlobStorage.updateSharedCode data fid now st).1)) ∧
    (∀ (fid : String) (st : BlobStore) (e : SharedCode), BlobStorage.getSharedCode st = some e →
       (data.content = none → (BlobStorage.updateSharedCode data fid now st).1.content = e.content) ∧
       (∀ c, data.content = some c → (BlobStorage.updateSharedCode data fid now st).1.content = c) ∧
       (data.language = none →
          (BlobStorage.updateSharedCode data fid now st).1.language = e.language) ∧
       (∀ l, data.language = some l →
          (BlobStorage.updateSharedCode data fid now st).1.language = l) ∧
       (BlobStorage.updateSharedCode data fid now st).1.updatedAt = now ∧
       (st.token = true →
          BlobStorage.getSharedCode (BlobStorage.updateSharedCode data fid now st).2 =
            some (BlobStorage.updateSharedCode data fid now st).1)) := by
  refine ⟨?_, ?_, ?_, ?_⟩
  · intro st h
    refine ⟨?_, ?_, ?_, ?_, ?_, ?_⟩
    · rintro (hc | hc) <;> simp [MemStorage.updateSharedCode, h, jsOrString, hc]
    · intro c hc hne; simp [MemStorage.updateSharedCode, h, jsOrString, hc, hne]
    · rintro (hl | hl) <;> simp [MemStorage.updateSharedCode, h, jsOrString, hl]
    · intro l hl hne; simp [MemStorage.updateSharedCode, h, jsOrString, hl, hne]
    · simp [MemStorage.updateSharedCode, h]
    · simp [MemStorage.updateSharedCode, h]
  · intro st e h
    refine ⟨?_, ?_, ?_, ?_, ?_, ?_⟩
    · intro hc; simp [MemStorage.updateSharedCode, h, jsCoalesce, hc]
    · intro c hc; simp [MemStorage.updateSharedCode, h, jsCoalesce, hc]
    · intro hl; simp [MemStorage.updateSharedCode, h, jsCoalesce, hl]
    · intro l hl; simp [MemStorage.updateSharedCode, h, jsCoalesce, hl]
    · simp [MemStorage.updateSharedCode, h]
    · simp [MemStorage.updateSharedCode, h]
  · intro fid st h
    refine ⟨?_, ?_, ?_, ?_, ?_, ?_⟩
    · rintro (hc | hc) <;> simp [BlobStorage.updateSharedCode, h, jsOrString, hc]
    · intro c hc hne; simp [BlobStorage.updateSharedCode, h, jsOrString, hc, hne]
    · rintro (hl | hl) <;> simp [BlobStorage.updateSharedCode, h, jsOrString, hl]
    · intro l hl hne; simp [BlobStorage.updateSharedCode, h, jsOrString, hl, hne]
    · simp [BlobStorage.updateSharedCode, h]
    · intro htok
      simp [BlobStorage.updateSharedCode, BlobStorage.getSharedCode, writeBlobJSON,
        readBlobJSON, h, htok]
  · intro fid st e h
    refine ⟨?_, ?_, ?_, ?_, ?_, ?_⟩
    · intro hc; simp [BlobStorage.updateSharedCode, h, jsCoalesce, hc]
    · intro c hc; simp [BlobStorage.updateSharedCode, h, jsCoalesce, hc]
    · intro hl; simp [BlobStorage.updateSharedCode, h, jsCoalesce, hl]
    · intro l hl; simp [BlobStorage.updateSharedCode, h, jsCoalesce, hl]
    · simp [BlobStorage.updateSharedCode, h]
    · intro htok
      simp [BlobStorage.updateSharedCode, BlobStorage.getSharedCode, writeBlobJSON,
        readBlobJSON, h, htok]

/-- Witness for C1 at the spec's own example: a language-only update on
an existing document with content `"x"` preserves the content and
changes only the language. -/
theorem C1_witness :
    (MemStorage.updateSharedCode ⟨none, some "python"⟩ 7
       { users := [], sharedCodeData := some ⟨"default", "x", "text", 3⟩,
         sharedFiles := [] }).1.content = "x" ∧
    (MemStorage.updateSharedCode ⟨none, some "python"⟩ 7
       { users := [], sharedCodeData := some ⟨"default", "x", "text", 3⟩,
         sharedFiles := [] }).1.language = "python" :=
  ⟨((C1_update_semantics ⟨none, some "python"⟩ 7).2.1 _ ⟨"default", "x", "text", 3⟩ rfl).1 rfl,
   ((C1_update_semantics ⟨none, some "python"⟩ 7).2.1 _ ⟨"default", "x", "text", 3⟩
      rfl).2.2.2.1 "python" rfl⟩

/-- Claim C2: a pull result arriving less than 2000 ms after the last
local edit never changes the local content or language, even when the
server timestamp is newer; the server version is applied exactly when
more than 2000 ms have elapsed AND the server timestamp is newer than
the last local edit, and applying it never touches the local edit
timestamp. -/
theorem C2_pull_grace_window (sc : SharedCode) (st : ClientState) (nowMs : Nat) :
    ((nowMs : Int) - (st.lastEditTime : Int) < 2000 →
       pullEffect (some sc) nowMs st = st) ∧
    (¬ ((nowMs : Int) - (st.lastEditTime : Int) > 2000 ∧
          (sc.updatedAt : Int) > (st.lastEditTime : Int)) →
       pullEffect (some sc) nowMs st = st) ∧
    ((nowMs : Int) - (st.lastEditTime : Int) > 2000 →
       (sc.updatedAt : Int) > (st.lastEditTime : Int) →
       (pullEffect (some sc) nowMs st).content = sc.content ∧
       (pullEffect (some sc) nowMs st).language = sc.language ∧
       (pullEffect (some sc) nowMs st).lastEditTime = st.lastEditTime) := by
  refine ⟨?_, ?_, ?_⟩
  · intro hlt
    have hno : ¬ ((nowMs : Int) - (st.lastEditTime : Int) > 2000 ∧
        (sc.updatedAt : Int) > (st.lastEditTime : Int)) := by
      rintro ⟨hgt, -⟩
      omega
    simp only [pullEffect]
    split
    · next hcond => exact absurd hcond hno
    · rfl
  · intro hno
    simp only [pullEffect]
    split
    · next hcond => exact absurd hcond hno
    · rfl
  · intro h1 h2
    have hyes : ((nowMs : Int) - (st.lastEditTime : Int) > 2000 ∧
        (sc.updatedAt : Int) > (st.lastEditTime : Int)) := ⟨h1, h2⟩
    by_cases hc : sc.content = st.content <;>
      by_cases hl : sc.language = st.language <;>
        simp [pullEffect, hyes, hc, hl]

/-- Witness for C2: at 1000 ms after the last edit a pull carrying a
much newer server document is discarded; at 5000 ms it is applied. -/
theorem C2_witness :
    pullEffect (some ⟨"default", "server", "python", 999999⟩) 1000 ⟨"local", "text", 0⟩ =
      ⟨"local", "text", 0⟩ ∧
    (pullEffect (some ⟨"default", "server", "python", 10⟩) 5000 ⟨"local", "text", 1⟩).content =
      "server" :=
  ⟨(C2_pull_grace_window ⟨"default", "server", "python", 999999⟩ ⟨"local", "text", 0⟩ 1000).1
      (by decide),
   ((C2_pull_grace_window ⟨"default", "server", "python", 10⟩ ⟨"local", "text", 1⟩ 5000).2.2
      (by decide) (by decide)).1⟩

/-- Counterexample to claim C3 as stated: `updatedAt` is set to the
current clock value, so an update performed in the same millisecond as
the stored timestamp (clock resolution is 1 ms) leaves `updatedAt`
equal, not strictly greater, in both backends. -/
theorem C3_counterexample :
    (MemStorage.updateSharedCode ⟨some "y", none⟩ 5
        { users := [], sharedCodeData := some ⟨"default", "x", "text", 5⟩,
          sharedFiles := [] }).1.updatedAt = 5 ∧
    ¬ (MemStorage.updateSharedCode ⟨some "y", none⟩ 5
        { users := [], sharedCodeData := some ⟨"default", "x", "text", 5⟩,
          sharedFiles := [] }).1.updatedAt > 5 ∧
    (BlobStorage.updateSharedCode ⟨some "y", none⟩ "u" 5
        ⟨true, some ⟨"d", "x", "text", 5⟩, none, none⟩).1.updatedAt = 5 := by decide

/-- Claim C3 (amended): every successful update sets `updatedAt` to the
current clock value; hence across a sequence of updates `updatedAt`
never decreases when the clock is monotone, and strictly increases
exactly when the clock has strictly advanced past the stored timestamp
(updates within the same clock millisecond leave it unchanged). -/
theorem C3_updatedAt_monotone (data : UpdateSharedCode) (now : Nat) :
    (∀ (st : MemState) (e : SharedCode), st.sharedCodeData = some e →
       (MemStorage.updateSharedCode data now st).1.updatedAt = now ∧
       (now > e.updatedAt → (MemStorage.updateSharedCode data now st).1.updatedAt > e.updatedAt) ∧
       (now ≥ e.updatedAt → (MemStorage.updateSharedCode data now st).1.updatedAt ≥ e.updatedAt) ∧
       (MemStorage.updateSharedCode data now st).2.sharedCodeData =
         some (MemStorage.updateSharedCode data now st).1) ∧
    (∀ (fid : String) (st : BlobStore) (e : SharedCode), BlobStorage.getSharedCode st = some e →
       (BlobStorage.updateSharedCode data fid now st).1.updatedAt = now ∧
       (now > e.updatedAt →
          (BlobStorage.updateSharedCode data fid now st).1.updatedAt > e.updatedAt) ∧
       (now ≥ e.updatedAt →
          (BlobStorage.updateSharedCode data fid now st).1.updatedAt ≥ e.updatedAt) ∧
       (st.token = true →
          (BlobStorage.updateSharedCode data fid now st).2.sharedCodeBlob =
            some (BlobStorage.updateSharedCode data fid now st).1)) := by
  constructor
  · intro st e h
    refine ⟨?_, ?_, ?_, ?_⟩ <;> simp [MemStorage.updateSharedCode, h]
  · intro fid st e h
    refine ⟨?_, ?_, ?_, ?_⟩
    · simp [BlobStorage.updateSharedCode, h]
    · intro hgt; simp [BlobStorage.updateSharedCode, h]; omega
    · intro hge; simp [BlobStorage.updateSharedCode, h]; omega
    · intro htok; simp [BlobStorage.updateSharedCode, writeBlobJSON, h, htok]

/-- Witness for C3 (amended): updating a document stamped 3 at clock
time 7 strictly increases the stored timestamp. -/
theorem C3_witness :
    (MemStorage.updateSharedCode ⟨some "y", none⟩ 7
        { users := [], sharedCodeData := some ⟨"default", "x", "text", 3⟩,
          sharedFiles := [] }).1.updatedAt > 3 :=
  ((C3_updatedAt_monotone ⟨some "y", none⟩ 7).1 _ ⟨"default", "x", "text", 3⟩ rfl).2.1
    (by decide)

/-- Claim C10: an update performed while a document exists preserves the
document's `id` (only `content`, `language`, `updatedAt` may change),
and leaves every other part of the backend state untouched, in both
backends. -/
theorem C10_update_preserves_id (data : UpdateSharedCode) (now : Nat) (fid : String) :
    (∀ (st : MemState) (e : SharedCode), st.sharedCodeData = some e →
       (MemStorage.updateSharedCode data now st).1.id = e.id ∧
       (MemStorage.updateSharedCode data now st).1 =
         { e with
           content := (MemStorage.updateSharedCode data now st).1.content
           language := (MemStorage.updateSharedCode data now st).1.language
           updatedAt := now } ∧
       (MemStorage.updateSharedCode data now st).2.users = st.users ∧
       (MemStorage.updateSharedCode data now st).2.sharedFiles = st.sharedFiles) ∧
    (∀ (st : BlobStore) (e : SharedCode), BlobStorage.getSharedCode st = some e →
       (BlobStorage.updateSharedCode data fid now st).1.id = e.id ∧
       (BlobStorage.updateSharedCode data fid now st).1 =
         { e with
           content := (BlobStorage.updateSharedCode data fid now st).1.content
           language := (BlobStorage.updateSharedCode data fid now st).1.language
           updatedAt := now } ∧
       (BlobStorage.updateSharedCode data fid now st).2.token = st.token ∧
       (BlobStorage.updateSharedCode data fid now st).2.usersBlob = st.usersBlob ∧
       (BlobStorage.updateSharedCode data fid now st).2.sharedFilesBlob = st.sharedFilesBlob) := by
  constructor
  · intro st e h
    refine ⟨?_, ?_, ?_, ?_⟩ <;> simp [MemStorage.updateSharedCode, h]
  · intro st e h
    refine ⟨?_, ?_, ?_, ?_, ?_⟩ <;> simp [BlobStorage.updateSharedCode, h]

/-- Witness for C10: a full update of an existing document keeps id
`"default"`. -/
theorem C10_witness :
    (MemStorage.updateSharedCode ⟨some "y", some "java"⟩ 9
        { users := [], sharedCodeData := some ⟨"default", "x", "text", 3⟩,
          sharedFiles := [] }).1.id = "default" :=
  ((C10_update_preserves_id ⟨some "y", some "java"⟩ 9 "u").1 _
      ⟨"default", "x", "text", 3⟩ rfl).1

/-- In a well-formed catalog map (keys equal record ids), the volatile
delete returns `true` exactly when a record with the id is listed. -/
theorem memDelete_result (fileId : String) (st : MemState)
    (hwf : ∀ p ∈ st.sharedFiles, p.2.id = p.1) :
    (MemStorage.deleteSharedFile fileId st).1 = true ↔
      ∃ f ∈ MemStorage.getSharedFiles st, f.id = fileId := by
  have h1 : (MemStorage.deleteSharedFile fileId st).1 = mapHasKey st.sharedFiles fileId := rfl
  rw [h1, mapHasKey_iff]
  constructor
  · rintro ⟨p, hp, hpk⟩
    exact ⟨p.2, List.mem_map_of_mem _ hp, by rw [hwf p hp, hpk]⟩
  · rintro ⟨f, hf, hfid⟩
    obtain ⟨p, hp, rfl⟩ := List.mem_map.1 hf
    exact ⟨p, hp, by rw [← hwf p hp]; exact hfid⟩

/-- After the volatile delete, no listed record carries the deleted id. -/
theorem memDelete_removes (fileId : String) (st : MemState)
    (hwf : ∀ p ∈ st.sharedFiles, p.2.id = p.1) :
    ∀ g ∈ MemStorage.getSharedFiles (MemStorage.deleteSharedFile fileId st).2,
      ¬ g.id = fileId := by
  intro g hg
  obtain ⟨p, hp, rfl⟩ := List.mem_map.1 hg
  obtain ⟨hpm, hpk⟩ := mem_mapRemove st.sharedFiles fileId p hp
  rw [hwf p hpm]
  exact hpk

/-- After the remote-object delete, no listed record carries the deleted
id (vacuously so without the credential, where the listing is empty). -/
theorem blobDelete_removes (fileId : String) (bst : BlobStore)
    (hbwf : ∀ p ∈ bst.sharedFilesBlob.getD [], p.2.id = p.1) :
    ∀ g ∈ BlobStorage.getSharedFiles (BlobStorage.deleteSharedFile fileId bst).2,
      ¬ g.id = fileId := by
  intro g hg
  cases htok : bst.token with
  | false =>
    rw [BlobStorage.getSharedFiles] at hg
    have : (BlobStorage.deleteSharedFile fileId bst).2.token = false := htok
    rw [this, readBlobJSON_of_no_token] at hg
    simp [mapValues] at hg
  | true =>
    rw [BlobStorage.getSharedFiles] at hg
    have ht2 : (BlobStorage.deleteSharedFile fileId bst).2.token = true := htok
    have hs2 : (BlobStorage.deleteSharedFile fileId bst).2.sharedFilesBlob =
        some (mapRemove (readBlobJSON bst.token bst.sharedFilesBlob []) fileId) := by
      simp [BlobStorage.deleteSharedFile, writeBlobJSON, htok]
    rw [ht2, hs2, readBlobJSON_of_token] at hg
    simp only [Option.getD_some] at hg
    obtain ⟨p, hp, rfl⟩ := List.mem_map.1 hg
    obtain ⟨hpm, hpk⟩ :=
      mem_mapRemove (readBlobJSON bst.token bst.sharedFilesBlob []) fileId p hp
    rw [htok, readBlobJSON_of_token] at hpm
    rw [hbwf p hpm]
    exact hpk

/-- Claim C4: the volatile `deleteSharedFile` returns `true` exactly
when a record with the id existed (and `false` otherwise), while the
remote-object backend returns `true` unconditionally, including for ids
absent from the catalog; in both backends the deleted id no longer
appears in a subsequent `getSharedFiles`. -/
theorem C4_delete_file_record (fileId : String) (st : MemState) (bst : BlobStore)
    (hwf : ∀ p ∈ st.sharedFiles, p.2.id = p.1)
    (hbwf : ∀ p ∈ bst.sharedFilesBlob.getD [], p.2.id = p.1) :
    ((MemStorage.deleteSharedFile fileId st).1 = true ↔
       ∃ f ∈ MemStorage.getSharedFiles st, f.id = fileId) ∧
    (∀ g ∈ MemStorage.getSharedFiles (MemStorage.deleteSharedFile fileId st).2,
       ¬ g.id = fileId) ∧
    (BlobStorage.deleteSharedFile fileId bst).1 = true ∧
    (∀ g ∈ BlobStorage.getSharedFiles (BlobStorage.deleteSharedFile fileId bst).2,
       ¬ g.id = fileId) :=
  ⟨memDelete_result fileId st hwf, memDelete_removes fileId st hwf, rfl,
   blobDelete_removes fileId bst hbwf⟩

/-- Witness for C4: deleting id `"a"` from a one-record volatile catalog
returns `true` and empties the listing; deleting the absent id `"z"`
from an empty remote catalog still returns `true`. -/
theorem C4_witness :
    (MemStorage.deleteSharedFile "a"
        { users := [], sharedCodeData := none,
          sharedFiles := [("a", ⟨"a", "f.txt", "/objects/f.txt", "10", 0⟩)] }).1 = true ∧
    (BlobStorage.deleteSharedFile "z" ⟨true, none, none, none⟩).1 = true :=
  ⟨(C4_delete_file_record "a"
      { users := [], sharedCodeData := none,
        sharedFiles := [("a", ⟨"a", "f.txt", "/objects/f.txt", "10", 0⟩)] }
      ⟨true, none, none, none⟩ (by decide) (by decide)).1.2
      ⟨⟨"a", "f.txt", "/objects/f.txt", "10", 0⟩, by decide⟩,
   (C4_delete_file_record "z"
      { users := [], sharedCodeData := none, sharedFiles := [] }
      ⟨true, none, none, none⟩ (by decide) (by decide)).2.2.1⟩

/-- A fresh id (no listed record carries it) is not a key of a
well-formed catalog map. -/
theorem hasKey_false_of_fresh (m : List (String × SharedFile)) (freshId : String)
    (hwf : ∀ p ∈ m, p.2.id = p.1)
    (hfresh : ∀ f ∈ mapValues ↑m, ¬ f.id = freshId) :
    mapHasKey m freshId = false := by
  cases hk : mapHasKey m freshId with
  | false => rfl
  | true =>
    obtain ⟨p, hp, hpk⟩ := (mapHasKey_iff m freshId).1 hk
    exact absurd (by rw [hwf p hp]; exact hpk) (hfresh p.2 (List.mem_map_of_mem _ hp))

/-- Appending a record whose id is listed nowhere else makes it appear
exactly once. -/
theorem count_values_append (l : List SharedFile) (v : SharedFile)
    (hfresh : ∀ f ∈ l, ¬ f.id = v.id) : (l ++ [v]).count v = 1 := by
  refine count_append_fresh l v ?_
  intro g hg hgv
  exact hfresh g hg (by rw [hgv])

/-- Claim C7: in both backends (the remote one under its credential,
which is the configuration in which it is selected), `createSharedFile`
returns a record carrying the fresh id and the given fields, and a
subsequent `getSharedFiles` lists that record exactly once. -/
theorem C7_create_then_get_exactly_once (data : InsertSharedFile) (freshId : String)
    (now : Nat) (st : MemState) (bst : BlobStore)
    (hwf : ∀ p ∈ st.sharedFiles, p.2.id = p.1)
    (hfresh : ∀ f ∈ MemStorage.getSharedFiles st, ¬ f.id = freshId)
    (hbwf : ∀ p ∈ bst.sharedFilesBlob.getD [], p.2.id = p.1)
    (hbfresh : ∀ f ∈ BlobStorage.getSharedFiles bst, ¬ f.id = freshId)
    (htok : bst.token = true) :
    (MemStorage.createSharedFile data freshId now st).1 =
      ⟨freshId, data.filename, data.objectPath, data.fileSize, now⟩ ∧
    (MemStorage.getSharedFiles (MemStorage.createSharedFile data freshId now st).2).count
      (MemStorage.createSharedFile data freshId now st).1 = 1 ∧
    (BlobStorage.createSharedFile data freshId now bst).1 =
      ⟨freshId, data.filename, data.objectPath, data.fileSize, now⟩ ∧
    (BlobStorage.getSharedFiles (BlobStorage.createSharedFile data freshId now bst).2).count
      (BlobStorage.createSharedFile data freshId now bst).1 = 1 := by
  have hkey : mapHasKey st.sharedFiles freshId = false :=
    hasKey_false_of_fresh st.sharedFiles freshId hwf hfresh
  refine ⟨rfl, ?_, rfl, ?_⟩
  · have hv : MemStorage.getSharedFiles (MemStorage.createSharedFile data freshId now st).2 =
        MemStorage.getSharedFiles st ++
          [⟨freshId, data.filename, data.objectPath, data.fileSize, now⟩] := by
      exact mapValues_mapSet_of_not_hasKey st.sharedFiles freshId _ hkey
    rw [hv]
    exact count_values_append _ _ (fun f hf => hfresh f hf)
  · have hfiles : readBlobJSON bst.token bst.sharedFilesBlob ([] : List (String × SharedFile)) =
        bst.sharedFilesBlob.getD [] := by
      rw [htok, readBlobJSON_of_token]
    have hbvals : BlobStorage.getSharedFiles bst = mapValues (bst.sharedFilesBlob.getD []) := by
      rw [BlobStorage.getSharedFiles, hfiles]
    have hbkey : mapHasKey (bst.sharedFilesBlob.getD []) freshId = false := by
      refine hasKey_false_of_fresh _ freshId hbwf ?_
      rw [← hbvals]
      exact hbfresh
    have hpost : BlobStorage.getSharedFiles (BlobStorage.createSharedFile data freshId now bst).2 =
        mapValues (mapSet (bst.sharedFilesBlob.getD []) freshId
          ⟨freshId, data.filename, data.objectPath, data.fileSize, now⟩) := by
      have ht2 : (BlobStorage.createSharedFile data freshId now bst).2.token = true := htok
      have hs2 : (BlobStorage.createSharedFile data freshId now bst).2.sharedFilesBlob =
          some (mapSet (bst.sharedFilesBlob.getD []) freshId
            ⟨freshId, data.filename, data.objectPath, data.fileSize, now⟩) := by
        simp [BlobStorage.createSharedFile, writeBlobJSON, htok, readBlobJSON_of_token]
      rw [BlobStorage.getSharedFiles, ht2, hs2, readBlobJSON_of_token]
      rfl
    rw [hpost, mapValues_mapSet_of_not_hasKey _ _ _ hbkey]
    refine count_values_append _ _ ?_
    intro f hf
    refine hbfresh f ?_
    rw [hbvals]
    exact hf

/-- Witness for C7: creating `f.txt` in empty backends lists the new
record exactly once in both. -/
theorem C7_witness :
    (MemStorage.getSharedFiles
        (MemStorage.createSharedFile ⟨"f.txt", "/objects/f.txt", "10"⟩ "fid" 0
          MemState.empty).2).count
      (MemStorage.createSharedFile ⟨"f.txt", "/objects/f.txt", "10"⟩ "fid" 0
        MemState.empty).1 = 1 ∧
    (BlobStorage.getSharedFiles
        (BlobStorage.createSharedFile ⟨"f.txt", "/objects/f.txt", "10"⟩ "fid" 0
          ⟨true, none, none, none⟩).2).count
      (BlobStorage.createSharedFile ⟨"f.txt", "/objects/f.txt", "10"⟩ "fid" 0
        ⟨true, none, none, none⟩).1 = 1 :=
  ⟨(C7_create_then_get_exactly_once ⟨"f.txt", "/objects/f.txt", "10"⟩ "fid" 0
      MemState.empty ⟨true, none, none, none⟩ (by decide) (by decide) (by decide)
      (by decide) rfl).2.1,
   (C7_create_then_get_exactly_once ⟨"f.txt", "/objects/f.txt", "10"⟩ "fid" 0
      MemState.empty ⟨true, none, none, none⟩ (by decide) (by decide) (by decide)
      (by decide) rfl).2.2.2⟩

/-- Claim C8: for an id present in the catalog, `DELETE /api/files/:id`
reports success and removes the catalog record, for every combination of
credential presence and byte-deletion outcome (a byte-deletion failure
is caught and never blocks the catalog deletion); the remote-object
variant reports success likewise. -/
theorem C8_delete_handler_best_effort (fileId : String) (token byteDeleteFails : Bool)
    (st : MemState) (bytes : List String)
    (bst : BlobStore) (bbytes : List String) (bfails : Bool)
    (hwf : ∀ p ∈ st.sharedFiles, p.2.id = p.1)
    (hex : ∃ f ∈ MemStorage.getSharedFiles st, f.id = fileId)
    (hbwf : ∀ p ∈ bst.sharedFilesBlob.getD [], p.2.id = p.1) :
    (deleteFileHandlerMem fileId token byteDeleteFails st bytes).1 = DeleteResponse.success ∧
    (∀ g ∈ MemStorage.getSharedFiles
        (deleteFileHandlerMem fileId token byteDeleteFails st bytes).2.1, ¬ g.id = fileId) ∧
    (deleteFileHandlerBlob fileId bfails bst bbytes).1 = DeleteResponse.success ∧
    (∀ g ∈ BlobStorage.getSharedFiles
        (deleteFileHandlerBlob fileId bfails bst bbytes).2.1, ¬ g.id = fileId) := by
  have hdel : (MemStorage.deleteSharedFile fileId st).1 = true :=
    (memDelete_result fileId st hwf).2 hex
  refine ⟨?_, ?_, ?_, ?_⟩
  · simp [deleteFileHandlerMem, hdel]
  · have h2 : (deleteFileHandlerMem fileId token byteDeleteFails st bytes).2.1 =
        (MemStorage.deleteSharedFile fileId st).2 := rfl
    rw [h2]
    exact memDelete_removes fileId st hwf
  · rfl
  · have h2 : (deleteFileHandlerBlob fileId bfails bst bbytes).2.1 =
        (BlobStorage.deleteSharedFile fileId bst).2 := rfl
    rw [h2]
    exact blobDelete_removes fileId bst hbwf

/-- Witness for C8: with no credential and a failing byte store, the
delete of the only record still reports success and empties the catalog
listing. -/
theorem C8_witness :
    (deleteFileHandlerMem "a" false true
        { users := [], sharedCodeData := none,
          sharedFiles := [("a", ⟨"a", "f.txt", "/objects/f.txt", "10", 0⟩)] }
        ["/objects/f.txt"]).1 = DeleteResponse.success :=
  (C8_delete_handler_best_effort "a" false true
      { users := [], sharedCodeData := none,
        sharedFiles := [("a", ⟨"a", "f.txt", "/objects/f.txt", "10", 0⟩)] }
      ["/objects/f.txt"] ⟨true, none, none, none⟩ [] true (by decide)
      ⟨⟨"a", "f.txt", "/objects/f.txt", "10", 0⟩, by decide⟩ (by decide)).1

/-- Counterexample to claim C9 as stated: neither the volatile nor the
remote-object backend checks username uniqueness.  Creating a second
user named `"alice"` succeeds (a `User` is returned) and both users are
stored, in both backends. -/
theorem C9_counterexample :
    (MemStorage.getUserByUsername "alice"
        { users := [("id1", ⟨"id1", "alice", "pw1"⟩)], sharedCodeData := none,
          sharedFiles := [] }).isSome = true ∧
    (MemStorage.createUser ⟨"alice", "pw2"⟩ "id2"
        { users := [("id1", ⟨"id1", "alice", "pw1"⟩)], sharedCodeData := none,
          sharedFiles := [] }).1 = ⟨"id2", "alice", "pw2"⟩ ∧
    ((mapValues (MemStorage.createUser ⟨"alice", "pw2"⟩ "id2"
        { users := [("id1", ⟨"id1", "alice", "pw1"⟩)], sharedCodeData := none,
          sharedFiles := [] }).2.users).filter
      (fun u => u.username = "alice")).length = 2 ∧
    (BlobStorage.createUser ⟨"alice", "pw2"⟩ "id2"
        ⟨true, none, none, some [("id1", ⟨"id1", "alice", "pw1"⟩)]⟩).1 =
      ⟨"id2", "alice", "pw2"⟩ ∧
    ((mapValues ((BlobStorage.createUser ⟨"alice", "pw2"⟩ "id2"
        ⟨true, none, none, some [("id1", ⟨"id1", "alice", "pw1"⟩)]⟩).2.usersBlob.getD
          [])).filter (fun u => u.username = "alice")).length = 2 := by decide

/-- Looking up a fresh key after appending its entry finds the entry. -/
theorem mapGet_append_self (m : List (String × α)) (k : String) (v : α)
    (h : mapHasKey m k = false) : mapGet (m ++ [(k, v)]) k = some v := by
  induction m with
  | nil => simp [mapGet]
  | cons p m ih =>
    have hh : ¬ p.1 = k ∧ mapHasKey m k = false := by
      simpa [mapHasKey] using h
    have := ih hh.2
    simpa [mapGet, List.find?, hh.1] using this

/-- Looking up any other key after appending an entry is unchanged. -/
theorem mapGet_append_other (m : List (String × α)) (k k2 : String) (v : α)
    (h : ¬ k2 = k) : mapGet (m ++ [(k, v)]) k2 = mapGet m k2 := by
  have hk : ¬ k = k2 := fun e => h e.symm
  induction m with
  | nil => simp [mapGet, List.find?, hk]
  | cons p m ih =>
    by_cases hp : p.1 = k2
    · simp [mapGet, List.find?, hp]
    · simpa [mapGet, List.find?, hp] using ih

/-- Claim C9 (amended): `createUser` stores and returns a user carrying
the freshly generated id and the given fields, in both backends; neither
backend checks username uniqueness, so the call succeeds regardless of
the usernames already present (only a relational unique constraint would
reject a duplicate), and no other user entry is affected. -/
theorem C9_create_user_no_uniqueness_check (ins : InsertUser) (freshId : String)
    (st : MemState) (bst : BlobStore)
    (hfresh : mapHasKey st.users freshId = false)
    (hbfresh : mapHasKey (bst.usersBlob.getD []) freshId = false)
    (htok : bst.token = true) :
    (MemStorage.createUser ins freshId st).1 = ⟨freshId, ins.username, ins.password⟩ ∧
    MemStorage.getUser freshId (MemStorage.createUser ins freshId st).2 =
      some ⟨freshId, ins.username, ins.password⟩ ∧
    (∀ k, ¬ k = freshId →
       MemStorage.getUser k (MemStorage.createUser ins freshId st).2 =
         MemStorage.getUser k st) ∧
    (BlobStorage.createUser ins freshId bst).1 = ⟨freshId, ins.username, ins.password⟩ ∧
    BlobStorage.getUser freshId (BlobStorage.createUser ins freshId bst).2 =
      some ⟨freshId, ins.username, ins.password⟩ ∧
    (∀ k, ¬ k = freshId →
       BlobStorage.getUser k (BlobStorage.createUser ins freshId bst).2 =
         BlobStorage.getUser k bst) := by
  have husers : (MemStorage.createUser ins freshId st).2.users =
      st.users ++ [(freshId, ⟨freshId, ins.username, ins.password⟩)] := by
    simp [MemStorage.createUser, mapSet, hfresh]
  have hbread : readBlobJSON bst.token bst.usersBlob ([] : List (String × User)) =
      bst.usersBlob.getD [] := by
    rw [htok, readBlobJSON_of_token]
  have hbusers : (BlobStorage.createUser ins freshId bst).2.usersBlob =
      some (bst.usersBlob.getD [] ++ [(freshId, ⟨freshId, ins.username, ins.password⟩)]) := by
    simp [BlobStorage.createUser, writeBlobJSON, htok, readBlobJSON_of_token, mapSet, hbfresh]
  have ht2 : (BlobStorage.createUser ins freshId bst).2.token = true := htok
  refine ⟨rfl, ?_, ?_, rfl, ?_, ?_⟩
  · rw [MemStorage.getUser, husers]
    exact mapGet_append_self st.users freshId _ hfresh
  · intro k hk
    rw [MemStorage.getUser, husers, MemStorage.getUser]
    exact mapGet_append_other st.users freshId k _ hk
  · rw [BlobStorage.getUser, ht2, hbusers, readBlobJSON_of_token]
    exact mapGet_append_self _ freshId _ hbfresh
  · intro k hk
    rw [BlobStorage.getUser, ht2, hbusers, readBlobJSON_of_token, BlobStorage.getUser, hbread]
    exact mapGet_append_other _ freshId k _ hk

/-- Witness for C9 (amended): a second `"alice"` is created with the
fresh id `"id2"` and both users are retrievable. -/
theorem C9_witness :
    (MemStorage.createUser ⟨"alice", "pw2"⟩ "id2"
        { users := [("id1", ⟨"id1", "alice", "pw1"⟩)], sharedCodeData := none,
          sharedFiles := [] }).1 = ⟨"id2", "alice", "pw2"⟩ ∧
    MemStorage.getUser "id2" (MemStorage.createUser ⟨"alice", "pw2"⟩ "id2"
        { users := [("id1", ⟨"id1", "alice", "pw1"⟩)], sharedCodeData := none,
          sharedFiles := [] }).2 = some ⟨"id2", "alice", "pw2"⟩ :=
  ⟨(C9_create_user_no_uniqueness_check ⟨"alice", "pw2"⟩ "id2"
      { users := [("id1", ⟨"id1", "alice", "pw1"⟩)], sharedCodeData := none,
        sharedFiles := [] } ⟨true, none, none, none⟩ (by decide) (by decide) rfl).1,
   (C9_create_user_no_uniqueness_check ⟨"alice", "pw2"⟩ "id2"
      { users := [("id1", ⟨"id1", "alice", "pw1"⟩)], sharedCodeData := none,
        sharedFiles := [] } ⟨true, none, none, none⟩ (by decide) (by decide) rfl).2.1⟩
